import Mathlib

/-!
Verification of src/app.py of the utcdtse repository.

The file under study is a single Python module whose core is the pure
function convert_file_to_text(file_content, file_name): it dispatches on
the filename extension obtained from os.path.splitext, extracts text from
DOCX / XLSX / PPTX / HTML / ZIP payloads via external parsing libraries,
and wraps any raised exception into an inline error string.

Shallow embedding choices:
  * Byte payloads are classified by what the external libraries would do
    with them.  The inductive type Content records, for one in-memory byte
    buffer, the parse outcome each library would produce: a buffer that
    parses as a Word document carries its paragraph texts, a buffer that
    parses as a workbook carries its worksheets, a buffer on which every
    parser raises carries the exception message, and an arbitrary buffer
    that is none of these carries its raw bytes.  ZIP members nest a
    Content recursively, which makes the unbounded archive recursion of
    the Python code structural.
  * The external libraries (python-docx, openpyxl, python-pptx, zipfile,
    markdownify, bytes.decode) are not repository code; they are modelled
    as total Lean functions over Content.  markdownify is kept fully
    abstract: convert_file_to_text is parameterised by the function
    md : String → String it applies.
  * os.path.splitext is modelled faithfully (posix rules): the extension
    starts at the last dot of the basename, and a basename whose stem
    consists only of dots has no extension.
-/

/-- A value held by one spreadsheet cell, as surfaced by openpyxl:
Python None, an integer, a boolean, or a string. -/
inductive CellValue where
  | vnone : CellValue
  | vint : Int → CellValue
  | vbool : Bool → CellValue
  | vstr : String → CellValue
deriving Repr, DecidableEq

/-- One worksheet of a workbook: its title and its rows of cell values,
in the order openpyxl iterates them. -/
structure Worksheet where
  title : String
  rows : List (List CellValue)
deriving Repr, DecidableEq

/-- One shape on a presentation slide.  The Python code probes
hasattr(shape, "text"); a shape either carries text or does not. -/
inductive Shape where
  | withText : String → Shape
  | noText : Shape
deriving Repr, DecidableEq

/-- The parse outcome a byte buffer offers to the external libraries.
zipFile lists the archive members in archive order, each a triple of
member path, directory flag (zipfile derives it from a trailing slash)
and the member byte content.  malformed stands for a buffer on which
every parser raises an exception carrying the given message.  rawBytes
is an arbitrary buffer handled only by the byte-level decode path. -/
inductive Content where
  | docxFile : List String → Content
  | xlsxFile : List Worksheet → Content
  | pptxFile : List (List Shape) → Content
  | zipFile : List (String × Bool × Content) → Content
  | rawBytes : List Nat → Content
  | malformed : String → Content
deriving Repr

/-- Kept after the last occurrence of the character c; the whole list when
c does not occur.  Used for the basename step of os.path.splitext. -/
def afterLast (c : Char) : List Char → List Char
  | [] => []
  | a :: rest =>
      if c ∈ rest then afterLast c rest
      else if a = c then rest
      else a :: rest

/-- Splits a character list at its last dot: returns the stem and the
extension including the dot, or none when no dot occurs. -/
def splitAtLastDot : List Char → Option (List Char × List Char)
  | [] => none
  | a :: rest =>
      match splitAtLastDot rest with
      | some (s, e) => some (a :: s, e)
      | none => if a = '.' then some ([], '.' :: rest) else none

/-- The extension part of os.path.splitext(name) on posix: the suffix of
the basename from its last dot on, unless every character of the stem is
a dot (so ".zip" as a whole filename has no extension). -/
def splitextExt (name : String) : String :=
  let base := afterLast '/' name.data
  match splitAtLastDot base with
  | some (stem, e) => if stem.any (fun c => c ≠ '.') then String.mk e else ""
  | none => ""

/-- Python str.startswith on whole strings. -/
def pyStartswith (s p : String) : Bool :=
  p.data.isPrefixOf s.data

/-- Concatenation of the renderings of a list of items, in list order:
the shape of every accumulation loop of app.py (output_text starts empty
and grows by appending). -/
def concatMap (f : α → String) : List α → String
  | [] => ""
  | a :: rest => f a ++ concatMap f rest

/-- Whether pat occurs contiguously inside l. -/
def listHasInfix (pat : List Char) : List Char → Bool
  | [] => pat.isEmpty
  | a :: rest => pat.isPrefixOf (a :: rest) || listHasInfix pat rest

/-- Whether pat occurs as a contiguous substring of s. -/
def hasSubstring (s pat : String) : Bool :=
  listHasInfix pat.data s.data

/-- Python truthiness of a cell value: None, 0, False and the empty
string are falsy. -/
def pyTruthy : CellValue → Bool
  | CellValue.vnone => false
  | CellValue.vint i => i ≠ 0
  | CellValue.vbool b => b
  | CellValue.vstr s => s ≠ ""

/-- Python str() of a cell value. -/
def pyStr : CellValue → String
  | CellValue.vnone => "None"
  | CellValue.vint i => toString i
  | CellValue.vbool b => if b then "True" else "False"
  | CellValue.vstr s => s

/-- The rendering str(cell.value or ''): the or-expression yields the
empty string when the value is falsy, and the value itself otherwise. -/
def cellText (v : CellValue) : String :=
  pyStr (if pyTruthy v then v else CellValue.vstr "")

/-- One row of the .xlsx branch: cell renderings tab-joined, then a
newline (line 51 of app.py). -/
def rowText (row : List CellValue) : String :=
  String.intercalate "\t" (row.map cellText) ++ "\n"

/-- The .xlsx branch accumulation over one worksheet (lines 48-51 of
app.py): the sheet title is never consulted. -/
def sheetText (sh : Worksheet) : String :=
  concatMap rowText sh.rows

/-- The .xlsx branch accumulation over the whole workbook. -/
def xlsxText (sheets : List Worksheet) : String :=
  concatMap sheetText sheets

/-- One shape of the .pptx branch: shapes with a text attribute
contribute their text plus a newline, others contribute nothing
(lines 59-61 of app.py). -/
def shapeText : Shape → String
  | Shape.withText t => t ++ "\n"
  | Shape.noText => ""

/-- The .pptx branch accumulation over one slide. -/
def slideText (sl : List Shape) : String :=
  concatMap shapeText sl

/-- The .pptx branch accumulation over the whole presentation: no
per-slide marker is emitted. -/
def pptxText (slides : List (List Shape)) : String :=
  concatMap slideText slides

/-- The capability probed by hasattr(shape, "text") on line 60 of
app.py. -/
def hasTextAttr : Shape → Bool
  | Shape.withText _ => true
  | Shape.noText => false

/-- Model of docx.Document: succeeds on a buffer that parses as a Word
document, raises otherwise (the message on a non-Word well-formed buffer
is a model placeholder; only the fact that it raises matters). -/
def parseDocx : Content → Except String (List String)
  | Content.docxFile paras => Except.ok paras
  | Content.malformed m => Except.error m
  | _ => Except.error "file is not a Word file"

/-- Model of openpyxl.load_workbook. -/
def parseXlsx : Content → Except String (List Worksheet)
  | Content.xlsxFile sheets => Except.ok sheets
  | Content.malformed m => Except.error m
  | _ => Except.error "file is not a zip file"

/-- Model of pptx.Presentation. -/
def parsePptx : Content → Except String (List (List Shape))
  | Content.pptxFile slides => Except.ok slides
  | Content.malformed m => Except.error m
  | _ => Except.error "Package not found"

/-- Model of bytes.decode with UTF-8 and errors ignored: decodes valid
sequences, silently skips invalid bytes, and never fails.  Surrogate
code points and values above 0x10FFFF are rejected as in CPython. -/
def utf8DecodeIgnore : List Nat → List Char
  | [] => []
  | b :: rest =>
      if b < 0x80 then Char.ofNat b :: utf8DecodeIgnore rest
      else if 0xC2 ≤ b ∧ b ≤ 0xDF then
        match h : rest with
        | b2 :: rest2 =>
            if 0x80 ≤ b2 ∧ b2 ≤ 0xBF then
              Char.ofNat ((b - 0xC0) * 64 + (b2 - 0x80)) :: utf8DecodeIgnore rest2
            else utf8DecodeIgnore rest
        | [] => []
      else if 0xE0 ≤ b ∧ b ≤ 0xEF then
        match h : rest with
        | b2 :: b3 :: rest3 =>
            if 0x80 ≤ b2 ∧ b2 ≤ 0xBF ∧ 0x80 ≤ b3 ∧ b3 ≤ 0xBF then
              let n := (b - 0xE0) * 4096 + (b2 - 0x80) * 64 + (b3 - 0x80)
              if 0x800 ≤ n ∧ (n < 0xD800 ∨ 0xDFFF < n) then
                Char.ofNat n :: utf8DecodeIgnore rest3
              else utf8DecodeIgnore rest
            else utf8DecodeIgnore rest
        | _ => utf8DecodeIgnore rest
      else if 0xF0 ≤ b ∧ b ≤ 0xF4 then
        match h : rest with
        | b2 :: b3 :: b4 :: rest4 =>
            if 0x80 ≤ b2 ∧ b2 ≤ 0xBF ∧ 0x80 ≤ b3 ∧ b3 ≤ 0xBF ∧ 0x80 ≤ b4 ∧ b4 ≤ 0xBF then
              let n := (b - 0xF0) * 262144 + (b2 - 0x80) * 4096 + (b3 - 0x80) * 64 + (b4 - 0x80)
              if 0x10000 ≤ n ∧ n ≤ 0x10FFFF then
                Char.ofNat n :: utf8DecodeIgnore rest4
              else utf8DecodeIgnore rest
            else utf8DecodeIgnore rest
        | _ => utf8DecodeIgnore rest
      else utf8DecodeIgnore rest
termination_by l => l.length
decreasing_by
  all_goals subst_vars
  all_goals simp [List.length]
  all_goals omega

/-- The decode step of the .html branch applied to a Content.  In
reality every payload is a byte buffer; the structured constructors of
Content stand for buffers whose byte-level text is not specified by the
model, so their decode defaults to the empty string.  The function is
total: with errors ignored the decode never raises. -/
def decodeContent : Content → String
  | Content.rawBytes bs => String.mk (utf8DecodeIgnore bs)
  | _ => ""

mutual

/-- convert_file_to_text of app.py (lines 26-91): the try block is
convert_attempt, and the except clause wraps a raised message into the
inline error string of lines 87-89.  md is the markdownify function,
kept abstract. -/
def convert_file_to_text (md : String → String) (file_content : Content)
    (file_name : String) : String :=
  match convert_attempt md file_content file_name with
  | Except.ok t => t
  | Except.error e =>
      "An error occurred while processing " ++ file_name ++ ": " ++ e
termination_by (sizeOf file_content, 1)

/-- The body of the try block of app.py (lines 35-85): dispatch on the
extension from os.path.splitext; an error value is a raised exception.
Only the library parse calls can raise; the decode of the .html branch
and the unsupported fallback cannot. -/
def convert_attempt (md : String → String) (file_content : Content)
    (file_name : String) : Except String String :=
  let file_extension := splitextExt file_name
  if file_extension = ".docx" then
    (parseDocx file_content).map (fun paras => String.intercalate "\n" paras)
  else if file_extension = ".xlsx" then
    (parseXlsx file_content).map xlsxText
  else if file_extension = ".pptx" then
    (parsePptx file_content).map pptxText
  else if file_extension = ".html" ∨ file_extension = ".htm" then
    Except.ok (md (decodeContent file_content))
  else if file_extension = ".zip" then
    match file_content with
    | Content.zipFile entries => Except.ok (convertZipEntries md entries)
    | Content.malformed m => Except.error m
    | _ => Except.error "File is not a zip file"
  else
    Except.ok ("Unsupported file type: \x27" ++ file_extension ++ "\x27")
termination_by (sizeOf file_content, 0)

/-- The loop over z.infolist() of the .zip branch (lines 74-81 of
app.py): directory members and members whose path starts with __MACOSX
are skipped; every other member contributes its marker line, the
recursive conversion of its bytes under its own path, and two newlines. -/
def convertZipEntries (md : String → String) :
    List (String × Bool × Content) → String
  | [] => ""
  | (fn, dirFlag, sub) :: rest =>
      (if dirFlag = false ∧ (pyStartswith fn ("__MACOSX")) = false then
        "--- Converted content from: " ++ fn ++ " ---\n"
          ++ convert_file_to_text md sub fn ++ "\n\n"
      else "") ++ convertZipEntries md rest
termination_by l => (sizeOf l, 2)

end

/-! ## Helper lemmas -/

/-- On a payload the library rejects, the .docx / .xlsx / .pptx / .zip
branches of the try block raise the carried message, and line 89 of
app.py wraps it into the inline error string. -/
lemma convert_malformed_error (md : String → String) (name m : String)
    (h : splitextExt name = ".docx" ∨ splitextExt name = ".xlsx"
      ∨ splitextExt name = ".pptx" ∨ splitextExt name = ".zip") :
    convert_file_to_text md (Content.malformed m) name
      = "An error occurred while processing " ++ name ++ ": " ++ m := by
  rcases h with h | h | h | h <;>
    simp [convert_file_to_text, convert_attempt, h, parseDocx, parseXlsx,
      parsePptx, Except.map]

/-- Under a .zip extension, converting a well-formed archive runs the
member loop. -/
lemma convert_zip_run (md : String → String) (name : String)
    (entries : List (String × Bool × Content))
    (h : splitextExt name = ".zip") :
    convert_file_to_text md (Content.zipFile entries) name
      = convertZipEntries md entries := by
  simp [convert_file_to_text, convert_attempt, h]

/-- The member loop is the concatenation, over the members in archive
order, of the contribution of each member. -/
lemma convertZipEntries_concat (md : String → String)
    (l : List (String × Bool × Content)) :
    convertZipEntries md l
      = concatMap (fun e =>
          if e.2.1 = false ∧ (pyStartswith e.1 ("__MACOSX")) = false then
            "--- Converted content from: " ++ e.1 ++ " ---\n"
              ++ convert_file_to_text md e.2.2 e.1 ++ "\n\n"
          else "") l := by
  induction l with
  | nil => simp [convertZipEntries, concatMap]
  | cons e rest ih =>
      rcases e with ⟨fn, dirFlag, sub⟩
      simp [convertZipEntries, concatMap, ih]

/-- The member loop distributes over list append. -/
lemma convertZipEntries_append (md : String → String)
    (l1 l2 : List (String × Bool × Content)) :
    convertZipEntries md (l1 ++ l2)
      = convertZipEntries md l1 ++ convertZipEntries md l2 := by
  induction l1 with
  | nil => simp [convertZipEntries]
  | cons e rest ih =>
      rcases e with ⟨fn, dirFlag, sub⟩
      simp [convertZipEntries, ih, String.append_assoc]

/-- Pointwise equal renderings concatenate equally. -/
lemma concatMap_congr (f g : α → String) (l : List α)
    (h : ∀ a, f a = g a) : concatMap f l = concatMap g l := by
  induction l with
  | nil => rfl
  | cons a rest ih => simp [concatMap, h, ih]

/-- Worksheet titles never reach the output of the .xlsx branch. -/
lemma xlsxText_retitle (retitle : String → String) (sheets : List Worksheet) :
    xlsxText (sheets.map (fun sh => ⟨retitle sh.title, sh.rows⟩))
      = xlsxText sheets := by
  induction sheets with
  | nil => rfl
  | cons sh rest ih =>
      simp only [xlsxText] at ih
      simp [xlsxText, concatMap, sheetText, ih]

/-- Shapes without a text attribute never reach the output of the .pptx
branch: dropping them leaves each slide rendering unchanged. -/
lemma slideText_filter (sl : List Shape) :
    slideText (sl.filter hasTextAttr) = slideText sl := by
  induction sl with
  | nil => rfl
  | cons sh rest ih =>
      simp only [slideText] at ih
      cases sh <;> simp [slideText, concatMap, hasTextAttr, shapeText, ih]

/-! ## Claim theorems -/

/-- C1: for an input whose filename has the .zip extension, the output is
the concatenation, in archive order over exactly the members that are not
directories and whose path does not start with __MACOSX, of a marker line
naming the member followed by the recursive conversion of the member
bytes under the member path (each contribution ends with two newlines, as
line 81 of app.py appends); recursion carries to any nesting depth since
nested archives re-enter the same function; and a member named
__MACOSX/._foo contributes neither output nor a marker. -/
theorem zip_recursive_concat (md : String → String) (name : String)
    (entries : List (String × Bool × Content))
    (h : splitextExt name = ".zip") :
    convert_file_to_text md (Content.zipFile entries) name
      = concatMap (fun e =>
          if e.2.1 = false ∧ (pyStartswith e.1 ("__MACOSX")) = false then
            "--- Converted content from: " ++ e.1 ++ " ---\n"
              ++ convert_file_to_text md e.2.2 e.1 ++ "\n\n"
          else "") entries
    ∧ ∀ c : Content,
        convert_file_to_text md
            (Content.zipFile [("__MACOSX/._foo", false, c)]) name = "" := by
  constructor
  · rw [convert_zip_run md name entries h, convertZipEntries_concat]
  · intro c
    rw [convert_zip_run md name _ h]
    have hp : pyStartswith ("__MACOSX/._foo") ("__MACOSX") = true := by decide
    simp [convertZipEntries, hp]

/-- C1 witness at a concrete archive and name. -/
theorem zip_recursive_concat_witness :
    convert_file_to_text (fun s => s) (Content.zipFile []) ("a.zip")
      = concatMap (fun e : String × Bool × Content =>
          if e.2.1 = false ∧ (pyStartswith e.1 ("__MACOSX")) = false then
            "--- Converted content from: " ++ e.1 ++ " ---\n"
              ++ convert_file_to_text (fun s => s) e.2.2 e.1 ++ "\n\n"
          else "") []
    ∧ ∀ c : Content,
        convert_file_to_text (fun s => s)
            (Content.zipFile [("__MACOSX/._foo", false, c)]) ("a.zip") = "" :=
  zip_recursive_concat (fun s => s) ("a.zip") [] (by decide)

/-- C2: when the selected extractor raises (modelled by a malformed
payload under an extension whose branch calls a parser), the exception
does not propagate: the call returns the single inline error string
naming the input filename. -/
theorem corrupt_input_error (md : String → String) (name m : String)
    (h : splitextExt name = ".docx" ∨ splitextExt name = ".xlsx"
      ∨ splitextExt name = ".pptx" ∨ splitextExt name = ".zip") :
    convert_file_to_text md (Content.malformed m) name
      = "An error occurred while processing " ++ name ++ ": " ++ m :=
  convert_malformed_error md name m h

/-- C2 witness at a concrete corrupt Word input. -/
theorem corrupt_input_error_witness :
    convert_file_to_text (fun s => s) (Content.malformed "bad magic") ("c.docx")
      = "An error occurred while processing " ++ "c.docx" ++ ": " ++ "bad magic" :=
  corrupt_input_error (fun s => s) ("c.docx") ("bad magic") (Or.inl (by decide))

/-- C3 counterexample: the code never lowercases the extension, so the
upper-case name A.DOCX is not dispatched to the Word extractor (it falls
to the unsupported-type branch), while a.docx is. -/
theorem ext_case_sensitive_cex :
    convert_file_to_text (fun s => s) (Content.docxFile ["x"]) ("A.DOCX")
        = "Unsupported file type: \x27.DOCX\x27"
      ∧ convert_file_to_text (fun s => s) (Content.docxFile ["x"]) ("a.docx")
        = "x" := by
  constructor
  · have h : splitextExt ("A.DOCX") = ".DOCX" := by decide
    simp [convert_file_to_text, convert_attempt, h]
  · have h : splitextExt ("a.docx") = ".docx" := by decide
    simp [convert_file_to_text, convert_attempt, h, parseDocx, Except.map,
      String.intercalate]
    rfl

/-- C3 amended: dispatch compares the extension returned by
os.path.splitext against the lower-case table case-sensitively, so every
filename whose extension is an upper-case variant of a table entry falls
to the unsupported-file-type branch instead of the corresponding
extractor. -/
theorem ext_case_sensitive_amended (md : String → String) (c : Content)
    (name : String)
    (h : splitextExt name
      ∈ ([".DOCX", ".XLSX", ".PPTX", ".HTML", ".HTM", ".ZIP"] : List String)) :
    convert_file_to_text md c name
      = "Unsupported file type: \x27" ++ splitextExt name ++ "\x27" := by
  simp only [List.mem_cons, List.not_mem_nil, or_false] at h
  rcases h with h | h | h | h | h | h <;>
    simp [convert_file_to_text, convert_attempt.eq_def, h]

/-- C3 amended witness at the concrete name A.DOCX. -/
theorem ext_case_sensitive_amended_witness :
    convert_file_to_text (fun s => s) (Content.rawBytes []) ("A.DOCX")
      = "Unsupported file type: \x27" ++ splitextExt ("A.DOCX") ++ "\x27" :=
  ext_case_sensitive_amended (fun s => s) (Content.rawBytes []) ("A.DOCX")
    (by decide)

/-- C4 counterexample: the .xlsx branch emits no line naming the sheet;
a workbook whose only sheet is titled Sheet1 and holds the single cell
hello converts to exactly one tab-joined row, and the title Sheet1
occurs nowhere in the output. -/
theorem xlsx_no_sheet_header_cex :
    convert_file_to_text (fun s => s)
        (Content.xlsxFile [⟨"Sheet1", [[CellValue.vstr "hello"]]⟩]) ("t.xlsx")
      = "hello\n"
    ∧ hasSubstring "hello\n" "Sheet1" = false := by
  constructor
  · have h : splitextExt ("t.xlsx") = ".xlsx" := by decide
    simp [convert_file_to_text, convert_attempt, h, parseXlsx, Except.map,
      xlsxText, sheetText, rowText, concatMap, cellText, pyTruthy, pyStr,
      String.intercalate]
    rfl
  · decide

/-- C4 amended: each row of each sheet is rendered as its cell values
tab-joined in column order followed by a newline, rows concatenated over
the sheets in order, with no per-sheet line: worksheet titles never
influence the output. -/
theorem xlsx_rows_amended (md : String → String) (name : String)
    (sheets : List Worksheet) (h : splitextExt name = ".xlsx") :
    convert_file_to_text md (Content.xlsxFile sheets) name
      = concatMap (fun sh =>
          concatMap (fun row =>
            String.intercalate "\t" (row.map cellText) ++ "\n") sh.rows) sheets
    ∧ ∀ retitle : String → String,
        convert_file_to_text md
            (Content.xlsxFile
              (sheets.map (fun sh => ⟨retitle sh.title, sh.rows⟩))) name
          = convert_file_to_text md (Content.xlsxFile sheets) name := by
  constructor
  · simp [convert_file_to_text, convert_attempt, h, parseXlsx, Except.map,
      xlsxText]
    exact concatMap_congr _ _ sheets (fun sh => rfl)
  · intro retitle
    simp [convert_file_to_text, convert_attempt, h, parseXlsx, Except.map,
      xlsxText_retitle]

/-- C4 amended witness at a concrete one-sheet workbook. -/
theorem xlsx_rows_amended_witness :
    convert_file_to_text (fun s => s)
        (Content.xlsxFile [⟨"S", [[CellValue.vstr "a", CellValue.vint 5]]⟩])
        ("t.xlsx")
      = concatMap (fun sh : Worksheet =>
          concatMap (fun row =>
            String.intercalate "\t" (row.map cellText) ++ "\n") sh.rows)
          [⟨"S", [[CellValue.vstr "a", CellValue.vint 5]]⟩]
    ∧ ∀ retitle : String → String,
        convert_file_to_text (fun s => s)
            (Content.xlsxFile
              (([⟨"S", [[CellValue.vstr "a", CellValue.vint 5]]⟩]
                : List Worksheet).map
                (fun sh => ⟨retitle sh.title, sh.rows⟩))) ("t.xlsx")
          = convert_file_to_text (fun s => s)
              (Content.xlsxFile [⟨"S", [[CellValue.vstr "a", CellValue.vint 5]]⟩])
              ("t.xlsx") :=
  xlsx_rows_amended (fun s => s) ("t.xlsx")
    [⟨"S", [[CellValue.vstr "a", CellValue.vint 5]]⟩] (by decide)

/-- C5 counterexample: the .pptx branch emits no line identifying a
slide; a deck whose only slide holds one text shape converts to that
text plus a newline, and no slide marker (in particular no occurrence of
the word Slide) appears. -/
theorem pptx_no_slide_header_cex :
    convert_file_to_text (fun s => s)
        (Content.pptxFile [[Shape.withText "hi", Shape.noText]]) ("p.pptx")
      = "hi\n"
    ∧ hasSubstring "hi\n" "Slide" = false := by
  constructor
  · have h : splitextExt ("p.pptx") = ".pptx" := by decide
    simp [convert_file_to_text, convert_attempt, h, parsePptx, Except.map,
      pptxText, slideText, shapeText, concatMap]
  · decide

/-- C5 amended: the .pptx output is the concatenation, over slides in
order and shapes in slide order, of each text-bearing shape followed by
a newline, with no per-slide line: shapes without a text attribute can
be dropped without changing the output. -/
theorem pptx_shapes_amended (md : String → String) (name : String)
    (slides : List (List Shape)) (h : splitextExt name = ".pptx") :
    convert_file_to_text md (Content.pptxFile slides) name
      = concatMap (fun sl => concatMap shapeText sl) slides
    ∧ convert_file_to_text md
          (Content.pptxFile (slides.map (fun sl => sl.filter hasTextAttr)))
          name
        = convert_file_to_text md (Content.pptxFile slides) name := by
  constructor
  · simp [convert_file_to_text, convert_attempt, h, parsePptx, Except.map,
      pptxText]
    exact concatMap_congr _ _ slides (fun sl => rfl)
  · simp [convert_file_to_text, convert_attempt, h, parsePptx, Except.map,
      pptxText]
    induction slides with
    | nil => rfl
    | cons sl rest ih => simp [concatMap, ih, slideText_filter]

/-- C5 amended witness at a concrete one-slide deck. -/
theorem pptx_shapes_amended_witness :
    convert_file_to_text (fun s => s)
        (Content.pptxFile [[Shape.withText "hi", Shape.noText]]) ("p.pptx")
      = concatMap (fun sl => concatMap shapeText sl)
          [[Shape.withText "hi", Shape.noText]]
    ∧ convert_file_to_text (fun s => s)
          (Content.pptxFile
            (([[Shape.withText "hi", Shape.noText]]
              : List (List Shape)).map (fun sl => sl.filter hasTextAttr)))
          ("p.pptx")
        = convert_file_to_text (fun s => s)
            (Content.pptxFile [[Shape.withText "hi", Shape.noText]]) ("p.pptx") :=
  pptx_shapes_amended (fun s => s) ("p.pptx")
    [[Shape.withText "hi", Shape.noText]] (by decide)

/-- C6: any extension outside the supported table falls to the final
else branch: the result is the unsupported-file-type message naming the
extension, for every payload alike (so no extractor ever touches the
bytes). -/
theorem unsupported_ext_message (md : String → String) (c : Content)
    (name : String)
    (h : splitextExt name
      ∉ ([".docx", ".xlsx", ".pptx", ".html", ".htm", ".zip"] : List String)) :
    convert_file_to_text md c name
      = "Unsupported file type: \x27" ++ splitextExt name ++ "\x27" := by
  simp only [List.mem_cons, List.not_mem_nil, or_false, not_or] at h
  obtain ⟨h1, h2, h3, h4, h5, h6⟩ := h
  simp [convert_file_to_text, convert_attempt.eq_def, h1, h2, h3, h4, h5, h6]

/-- C6 witness at a concrete .pdf name. -/
theorem unsupported_ext_message_witness :
    convert_file_to_text (fun s => s) (Content.rawBytes [1]) ("doc.pdf")
      = "Unsupported file type: \x27" ++ splitextExt ("doc.pdf") ++ "\x27" :=
  unsupported_ext_message (fun s => s) (Content.rawBytes [1]) ("doc.pdf")
    (by decide)

/-- C7: under the .html or .htm extension the bytes are decoded as UTF-8
with invalid sequences ignored (utf8DecodeIgnore is total, so the decode
step cannot fail) and the result of the conversion is exactly the
markdownify function applied to the decoded string. -/
theorem html_decode_markdown (md : String → String) (bs : List Nat)
    (name : String)
    (h : splitextExt name = ".html" ∨ splitextExt name = ".htm") :
    convert_file_to_text md (Content.rawBytes bs) name
      = md (String.mk (utf8DecodeIgnore bs)) := by
  rcases h with h | h <;>
    simp [convert_file_to_text, convert_attempt, h, decodeContent]

/-- C7 witness at concrete bytes containing an invalid UTF-8 byte. -/
theorem html_decode_markdown_witness :
    convert_file_to_text (fun s => s) (Content.rawBytes [72, 105, 255, 33])
        ("x.html")
      = (fun s => s) (String.mk (utf8DecodeIgnore [72, 105, 255, 33])) :=
  html_decode_markdown (fun s => s) [72, 105, 255, 33] ("x.html")
    (Or.inl (by decide))

/-- C8: the conversion is deterministic.  The Python function reads no
global state and mutates nothing it does not own, and the embedding is a
pure function of (markdownify, content, filename), so two invocations on
the same pair agree. -/
theorem convert_deterministic (md : String → String) (c : Content)
    (name : String) :
    convert_file_to_text md c name = convert_file_to_text md c name := rfl

/-- C9: archive-member failures are isolated per member.  When one
member of a .zip input carries a payload its extractor rejects, the
recursive invocation for that member catches the exception inside its
own try block and contributes the inline error string naming the member
path, while every member before and after it is still converted with its
own marker line. -/
theorem zip_entry_failure_isolated (md : String → String)
    (name fn m : String) (pre post : List (String × Bool × Content))
    (hz : splitextExt name = ".zip")
    (hfn : splitextExt fn = ".docx" ∨ splitextExt fn = ".xlsx"
      ∨ splitextExt fn = ".pptx" ∨ splitextExt fn = ".zip")
    (hmac : pyStartswith fn ("__MACOSX") = false) :
    convert_file_to_text md
        (Content.zipFile (pre ++ (fn, false, Content.malformed m) :: post))
        name
      = convertZipEntries md pre
        ++ ("--- Converted content from: " ++ fn ++ " ---\n"
            ++ ("An error occurred while processing " ++ fn ++ ": " ++ m)
            ++ "\n\n")
        ++ convertZipEntries md post := by
  rw [convert_zip_run md name _ hz, convertZipEntries_append]
  simp [convertZipEntries, hmac, convert_malformed_error md fn m hfn,
    String.append_assoc]

/-- C9 witness: a two-member archive whose second member is corrupt
still converts its first member. -/
theorem zip_entry_failure_isolated_witness :
    convert_file_to_text (fun s => s)
        (Content.zipFile
          ([("a.docx", false, Content.docxFile ["inner"])]
            ++ ("bad.xlsx", false, Content.malformed "zip err") :: []))
        ("outer.zip")
      = convertZipEntries (fun s => s)
          [("a.docx", false, Content.docxFile ["inner"])]
        ++ ("--- Converted content from: " ++ "bad.xlsx" ++ " ---\n"
            ++ ("An error occurred while processing " ++ "bad.xlsx" ++ ": "
                ++ "zip err")
            ++ "\n\n")
        ++ convertZipEntries (fun s => s) [] :=
  zip_entry_failure_isolated (fun s => s) ("outer.zip") ("bad.xlsx")
    ("zip err") [("a.docx", false, Content.docxFile ["inner"])] []
    (by decide) (Or.inr (Or.inl (by decide))) (by decide)

/-- C10: every falsy cell value renders as the empty string in the
tab-joined row: None, integer 0, boolean False and the empty string all
contribute nothing, never the text 0 or False; a one-row sheet of the
four falsy values converts to three tabs and a newline. -/
theorem falsy_cell_empty :
    (∀ v : CellValue, pyTruthy v = false → cellText v = "")
    ∧ ∀ (md : String → String) (name t : String),
        splitextExt name = ".xlsx" →
        convert_file_to_text md
            (Content.xlsxFile
              [⟨t, [[CellValue.vint 0, CellValue.vbool false,
                CellValue.vstr "", CellValue.vnone]]⟩]) name
          = "\t\t\t\n" := by
  constructor
  · intro v hv
    simp [cellText, hv, pyStr]
  · intro md name t h
    simp [convert_file_to_text, convert_attempt, h, parseXlsx, Except.map,
      xlsxText, sheetText, rowText, concatMap, cellText, pyTruthy, pyStr,
      String.intercalate]
    rfl

/-- C10 witness at the four concrete falsy values. -/
theorem falsy_cell_empty_witness :
    cellText (CellValue.vint 0) = ""
    ∧ convert_file_to_text (fun s => s)
        (Content.xlsxFile
          [⟨"S", [[CellValue.vint 0, CellValue.vbool false,
            CellValue.vstr "", CellValue.vnone]]⟩]) ("t.xlsx")
      = "\t\t\t\n" :=
  ⟨falsy_cell_empty.1 (CellValue.vint 0) (by decide),
    falsy_cell_empty.2 (fun s => s) ("t.xlsx") ("S") (by decide)⟩
